import Mathlib

/-!
Verification of the argument-binding algorithm (`parse_fn_args`) and the
module-bootstrap routine (`make_module`) of `src/derive_utils.rs`.

The Rust code is shallowly embedded: Python objects become an abstract value
type `V`; a `PyTuple` of positional arguments becomes `List V`; a `PyDict` of
keyword arguments becomes `Option (List (String × V))` with first-match lookup
(`dictGet` models `PyDict::get_item`, `dictLen` models `PyDict::len`, and the
list itself models `PyDict::items`); the caller-supplied `&mut [Option<...>]`
output slice is threaded explicitly, so the function returns both its
`PyResult` and the final state of the output slice.  A Rust panic
(`Option::unwrap` on `None`, or `.expect`) is modelled by the `fatal`
outcome.
-/

/-- Embeds `ParamDescription` (src/derive_utils.rs, lines 20-27). -/
structure ParamDescription where
  name : String
  is_optional : Bool
  kw_only : Bool
deriving DecidableEq, Repr

/-- The five `TypeError` messages `parse_fn_args` can build, kept as a
structured inductive so the error kinds of the spec are distinguishable;
`FnArgsError.message` renders the exact format strings of the source. -/
inductive FnArgsError where
  | tooManyArgs (fname : Option String) (maxArity : Nat) (given : Nat)
  | duplicateArg (name : String) (pos : Nat)
  | requiredKwOnly (name : String)
  | requiredPosMissing (name : String) (pos : Nat)
  | invalidKeyword (key : String)
deriving DecidableEq, Repr

/-- A single-quote character, used inside the message strings of the source. -/
def sglq : String := "\x27"

/-- Renders each error exactly as the `format!` calls in the source do
(lines 49-56, 66-70, 76-79, 87-91, 103-106).  Note line 54 appends `"s"`
precisely when `params.len() == 1`. -/
def FnArgsError.message : FnArgsError → String
  | .tooManyArgs fname maxArity given =>
      (fname.getD "function") ++ (if fname.isSome then "()" else "") ++
      " takes at most " ++ toString maxArity ++ " argument" ++
      (if maxArity == 1 then "s" else "") ++
      " (" ++ toString given ++ " given)"
  | .duplicateArg name pos =>
      "Argument given by name (" ++ sglq ++ name ++ sglq ++ ") and position (" ++
      toString pos ++ ")"
  | .requiredKwOnly name =>
      "Required argument (" ++ sglq ++ name ++ sglq ++ ") is keyword only argument"
  | .requiredPosMissing name pos =>
      "Required argument (" ++ sglq ++ name ++ sglq ++ ") (pos " ++
      toString pos ++ ") not found"
  | .invalidKeyword key =>
      sglq ++ key ++ sglq ++ " is an invalid keyword argument for this function"

/-- Outcome of one `parse_fn_args` call: `ok`/`err` embed `PyResult<()>`,
`fatal` embeds a Rust panic. -/
inductive ParseResult where
  | ok : ParseResult
  | err : FnArgsError → ParseResult
  | fatal : String → ParseResult
deriving DecidableEq, Repr

/-- Embeds `kwargs.and_then(|d| d.get_item(name))` (line 61): dictionary lookup,
first matching key wins. -/
def dictGet {V : Type} (kwargs : Option (List (String × V))) (name : String) :
    Option V :=
  kwargs.bind fun d => (d.find? fun kv => kv.1 == name).map Prod.snd

/-- Embeds `kwargs.map_or(0, |d| d.len())` (line 47). -/
def dictLen {V : Type} (kwargs : Option (List (String × V))) : Nat :=
  match kwargs with
  | none => 0
  | some d => d.length

/-- The parameter loop of `parse_fn_args` (lines 58-96).  Walks
`params.iter().zip(output)` with index `i` and the running `used_keywords`
counter; returns the error (if any), the final state of the output slots,
and the final counter.  Writes happen in the order of the source: in the
duplicate-binding branch the slot is written *before* the error is
returned (lines 63-71); in the required-keyword-only branch the function
returns before writing (lines 75-80). -/
def bindLoop {V : Type} (args : List V) (kwargs : Option (List (String × V))) :
    List ParamDescription → List (Option V) → Nat → Nat →
    Option FnArgsError × List (Option V) × Nat
  | [], os, _, used => (none, os, used)
  | _ :: _, [], _, used => (none, [], used)
  | p :: ps, o :: os, i, used =>
    match dictGet kwargs p.name with
    | some kwarg =>
      if i < args.length then
        (some (.duplicateArg p.name (i + 1)), some kwarg :: os, used + 1)
      else
        let r := bindLoop args kwargs ps os (i + 1) (used + 1)
        (r.1, some kwarg :: r.2.1, r.2.2)
    | none =>
      if p.kw_only then
        if !p.is_optional then
          (some (.requiredKwOnly p.name), o :: os, used)
        else
          let r := bindLoop args kwargs ps os (i + 1) used
          (r.1, none :: r.2.1, r.2.2)
      else if h : i < args.length then
        let r := bindLoop args kwargs ps os (i + 1) used
        (r.1, some (args.get ⟨i, h⟩) :: r.2.1, r.2.2)
      else if !p.is_optional then
        (some (.requiredPosMissing p.name (i + 1)), none :: os, used)
      else
        let r := bindLoop args kwargs ps os (i + 1) used
        (r.1, none :: r.2.1, r.2.2)

/-- The extraneous-keyword scan (lines 99-108): iterate the dict items and
fail on the first key matching no declared parameter.  The
`PyTuple`/`PyString` conversions of lines 100-101 cannot fail in the
embedding because dict items are string-keyed pairs by construction. -/
def keywordScan {V : Type} (params : List ParamDescription) :
    List (String × V) → Option FnArgsError
  | [] => none
  | (key, _) :: rest =>
    if params.any fun p => p.name == key then keywordScan params rest
    else some (.invalidKeyword key)

/-- Embeds `parse_fn_args` (lines 37-111).  Returns the `PyResult` together
with the final contents of the `output` slice of the caller (which the source
mutates in place). -/
def parse_fn_args {V : Type} (fname : Option String)
    (params : List ParamDescription) (args : List V)
    (kwargs : Option (List (String × V)))
    (accept_args accept_kwargs : Bool) (output : List (Option V)) :
    ParseResult × List (Option V) :=
  let nargs := args.length
  let nkeywords := dictLen kwargs
  if (!accept_args && !accept_kwargs) = true ∧ params.length < nargs + nkeywords
  then
    (.err (.tooManyArgs fname params.length (nargs + nkeywords)), output)
  else
    let r := bindLoop args kwargs params output 0 0
    match r.1 with
    | some e => (.err e, r.2.1)
    | none =>
      if (!accept_kwargs) = true ∧ r.2.2 ≠ nkeywords then
        match kwargs with
        | none => (.fatal "called Option.unwrap on a None value", r.2.1)
        | some d =>
          match keywordScan params d with
          | some e => (.err e, r.2.1)
          | none => (.ok, r.2.1)
      else (.ok, r.2.1)

/-- Condition under which the loop body of lines 60-96 raises no error for a
parameter `p` sitting at absolute index `i`: a keyword match must not be
shadowed by a positional argument, a keyword-only parameter without a
keyword must be optional, and otherwise a parameter must get a positional
value or be optional. -/
def stepNoError {V : Type} (args : List V)
    (kwargs : Option (List (String × V))) (p : ParamDescription) (i : Nat) :
    Bool :=
  match dictGet kwargs p.name with
  | some _ => !decide (i < args.length)
  | none =>
    if p.kw_only then p.is_optional
    else decide (i < args.length) || p.is_optional

/-- Removes every entry with the given key from a keyword dictionary (used
to state that an extraneous key influences no fixed-parameter slot). -/
def dictRemove {V : Type} (d : List (String × V)) (key : String) :
    List (String × V) :=
  d.filter fun kv => !(kv.1 == key)

/-!
Embedding of `make_module` (the `Py_3` variant, lines 116-161).  The foreign
runtime behaviour on this one run is abstracted into `BootstrapEnv`: what
`PyModule_Create` returns, whether `from_owned_ptr_or_err` validates the
handle, whether `module.add("__doc__", doc)` succeeds, and what the
user-supplied initializer returns.  The observable effects recorded in
`BootstrapRun` are the returned pointer (`ret = none` models a panic,
`some none` the null sentinel, `some (some m)` a non-null pointer), the list
of errors restored to the runtime via `e.restore(py)`, and whether the
`GILPool` scope was opened and later released.
-/

/-- Abstracted outcomes of the foreign-runtime calls inside one
`make_module` run. -/
structure BootstrapEnv (M E : Type) where
  createResult : Option M
  wrapResult : Except E Unit
  docResult : Except E Unit
  initResult : Except E Unit

/-- Observable trace of one `make_module` run. -/
structure BootstrapRun (M E : Type) where
  ret : Option (Option M)
  restored : List E
  scopeOpened : Bool
  scopeClosed : Bool
deriving DecidableEq, Repr

/-- Embeds `make_module` (lines 116-161).  The early `return module` on a
null creation result (lines 137-139) happens *before* `GILPool::new()`
(line 141); the `.expect` on doc attachment (lines 151-153) panics; the
`GILPool` is dropped on every later exit, including the panic unwind. -/
def make_module {M E : Type} (_name _doc : String) (env : BootstrapEnv M E) :
    BootstrapRun M E :=
  match env.createResult with
  | none =>
    { ret := some none, restored := [], scopeOpened := false,
      scopeClosed := false }
  | some m =>
    match env.wrapResult with
    | .error e =>
      { ret := some none, restored := [e], scopeOpened := true,
        scopeClosed := true }
    | .ok _ =>
      match env.docResult with
      | .error _ =>
        { ret := none, restored := [], scopeOpened := true,
          scopeClosed := true }
      | .ok _ =>
        match env.initResult with
        | .error e =>
          { ret := some none, restored := [e], scopeOpened := true,
            scopeClosed := true }
        | .ok _ =>
          { ret := some (some m), restored := [], scopeOpened := true,
            scopeClosed := true }

/-!  ## Claim theorems: module bootstrap  -/

/-- C7: when the initializer is reached (creation, wrapping and doc
attachment succeeded), an initializer success makes `make_module` return the
non-null module pointer with no error restored, and an initializer failure
makes it restore exactly that one error and return the null sentinel. -/
theorem bootstrap_initializer_outcomes {M E : Type} (name doc : String)
    (env : BootstrapEnv M E) (m : M)
    (hc : env.createResult = some m) (hw : env.wrapResult = .ok ())
    (hd : env.docResult = .ok ()) :
    (env.initResult = .ok () →
      (make_module name doc env).ret = some (some m) ∧
      (make_module name doc env).restored = []) ∧
    (∀ e : E, env.initResult = .error e →
      (make_module name doc env).ret = some none ∧
      (make_module name doc env).restored = [e]) := by
  refine ⟨fun hi => ?_, fun e hi => ?_⟩ <;> simp [make_module, hc, hw, hd, hi]

/-- Witness for `bootstrap_initializer_outcomes` at a concrete environment. -/
theorem bootstrap_initializer_outcomes_witness :
    (make_module "m" "d"
        (⟨some 0, .ok (), .ok (), .ok ()⟩ : BootstrapEnv Nat Nat)).ret =
      some (some 0) ∧
    (make_module "m" "d"
        (⟨some 0, .ok (), .ok (), .error 7⟩ : BootstrapEnv Nat Nat)).ret =
      some none ∧
    (make_module "m" "d"
        (⟨some 0, .ok (), .ok (), .error 7⟩ : BootstrapEnv Nat Nat)).restored =
      [7] :=
  ⟨((bootstrap_initializer_outcomes "m" "d" _ 0 rfl rfl rfl).1 rfl).1,
   ((bootstrap_initializer_outcomes "m" "d" _ 0 rfl rfl rfl).2 7 rfl).1,
   ((bootstrap_initializer_outcomes "m" "d" _ 0 rfl rfl rfl).2 7 rfl).2⟩

/-- C8 counterexample: when module creation returns null, `make_module`
returns the null sentinel without ever opening the `GILPool` scope, so the
scope is not "created at the start of every bootstrap invocation". -/
theorem scope_not_opened_on_create_failure :
    (make_module "m" "d"
        (⟨none, .ok (), .ok (), .ok ()⟩ : BootstrapEnv Nat Nat)).scopeOpened =
      false ∧
    (make_module "m" "d"
        (⟨none, .ok (), .ok (), .ok ()⟩ : BootstrapEnv Nat Nat)).ret =
      some none :=
  ⟨rfl, rfl⟩

/-- C8 (amended): the scope is opened exactly when module-object creation
succeeds (on the early null-creation path it is never opened), and it is
never held after `make_module` finishes: it is closed precisely when it was
opened. -/
theorem scope_open_iff_create_succeeded {M E : Type} (name doc : String)
    (env : BootstrapEnv M E) :
    (make_module name doc env).scopeOpened = env.createResult.isSome ∧
    (make_module name doc env).scopeClosed =
      (make_module name doc env).scopeOpened := by
  rcases env with ⟨c, w, d, i⟩
  cases c <;> cases w <;> cases d <;> cases i <;> simp [make_module]

/-- C9: a failure while attaching the documentation attribute makes
`make_module` panic (the `.expect` aborts): the run returns no pointer at
all, null or otherwise. -/
theorem doc_failure_panics {M E : Type} (name doc : String)
    (env : BootstrapEnv M E) (m : M) (e : E)
    (hc : env.createResult = some m) (hw : env.wrapResult = .ok ())
    (hd : env.docResult = .error e) :
    (make_module name doc env).ret = none := by
  simp [make_module, hc, hw, hd]

/-- Witness for `doc_failure_panics` at a concrete environment. -/
theorem doc_failure_panics_witness :
    (make_module "m" "d"
        (⟨some 0, .ok (), .error 3, .ok ()⟩ : BootstrapEnv Nat Nat)).ret =
      none :=
  doc_failure_panics "m" "d" _ 0 3 rfl rfl rfl

/-!  ## Claim theorems: argument binding  -/

/-- C4: the pluralization in the `TooManyArguments` message is inverted by
line 54 of the source (`if params.len() == 1 { "s" } else { "" }`): with a
maximum arity of exactly 1 the message reads plural "arguments", and with
any other maximum it reads singular "argument". -/
theorem too_many_arguments_plural_bug :
    (parse_fn_args none [⟨"a", false, false⟩] ([1, 2] : List Nat) none false
        false [none]).1 = .err (.tooManyArgs none 1 2) ∧
    FnArgsError.message (.tooManyArgs none 1 2) =
      "function takes at most 1 arguments (2 given)" ∧
    FnArgsError.message (.tooManyArgs (some "f") 3 5) =
      "f() takes at most 3 argument (5 given)" := by
  decide

/-- C1 counterexample: parameter "b" (index 1) is supplied both positionally
(two positional arguments exist) and by keyword, yet binding fails with the
`MissingKeywordOnlyArgument` error for the earlier parameter "a", not with
`DuplicateBinding` for "b". -/
theorem duplicate_binding_not_unconditional :
    dictGet (some [("b", (30 : Nat))]) "b" = some 30 ∧
    1 < ([10, 20] : List Nat).length ∧
    (parse_fn_args none [⟨"a", false, true⟩, ⟨"b", false, false⟩]
        ([10, 20] : List Nat) (some [("b", 30)]) true true [none, none]).1 =
      .err (.requiredKwOnly "a") := by
  decide

/-- C5 counterexample: parameter "b" is keyword-only, required and has no
keyword entry, yet binding fails with `TooManyArguments` (the arity
pre-check of lines 48-57 fires first), not `MissingKeywordOnlyArgument`. -/
theorem missing_kwonly_not_unconditional :
    dictGet (none : Option (List (String × Nat))) "b" = none ∧
    (parse_fn_args none [⟨"b", false, true⟩] ([1, 2] : List Nat) none false
        false [none]).1 = .err (.tooManyArgs none 1 2) := by
  decide

/-- C2 counterexample: a call that fails with `DuplicateBinding` has already
written the slot of the duplicated parameter (line 63 precedes the error return
of lines 66-70), so the output array of the caller is no longer all-unbound. -/
theorem bind_error_mutates_output :
    parse_fn_args none [⟨"a", false, false⟩] ([7] : List Nat)
        (some [("a", 9)]) true true [none] =
      (.err (.duplicateArg "a" 1), [some 9]) ∧
    [some (9 : Nat)] ≠ ([none] : List (Option Nat)) := by
  decide

/-- C10 counterexample: with a parameter list repeating the name "a",
the `used_keywords` counter of the loop reaches 2 while `nkeywords` is 1, so
`used_keywords` can exceed `nkeywords`. -/
theorem used_keywords_exceeds_nkeywords :
    (bindLoop ([] : List Nat) (some [("a", 5)])
        [⟨"a", false, false⟩, ⟨"a", false, false⟩] [none, none] 0 0).2.2 = 2 ∧
    dictLen (some [("a", (5 : Nat))]) = 1 := by
  decide

/-!  ## Structural lemmas about the parameter loop  -/

/-- The loop writes output slots only in place: the slice keeps its length. -/
lemma bindLoop_len {V : Type} (args : List V)
    (kwargs : Option (List (String × V))) :
    ∀ (ps : List ParamDescription) (os : List (Option V)) (i u : Nat),
      (bindLoop args kwargs ps os i u).2.1.length = os.length := by
  intro ps
  induction ps with
  | nil => intro os i u; simp [bindLoop]
  | cons p ps ih =>
    intro os i u
    cases os with
    | nil => simp [bindLoop]
    | cons o os =>
      cases h : dictGet kwargs p.name with
      | some kwarg =>
        by_cases hi : i < args.length <;> simp [bindLoop, h, hi, ih]
      | none =>
        cases hk : p.kw_only <;> cases ho : p.is_optional <;>
          by_cases hi : i < args.length <;> simp [bindLoop, h, hk, ho, hi, ih]

/-- The error the loop reports does not depend on the incoming
`used_keywords` counter. -/
lemma bindLoop_fst_used {V : Type} (args : List V)
    (kwargs : Option (List (String × V))) :
    ∀ (ps : List ParamDescription) (os : List (Option V)) (i u u' : Nat),
      (bindLoop args kwargs ps os i u).1 =
      (bindLoop args kwargs ps os i u').1 := by
  intro ps
  induction ps with
  | nil => intro os i u u'; simp [bindLoop]
  | cons p ps ih =>
    intro os i u u'
    cases os with
    | nil => simp [bindLoop]
    | cons o os =>
      cases h : dictGet kwargs p.name with
      | some kwarg =>
        by_cases hi : i < args.length <;>
          simp [bindLoop, h, hi, ih os (i + 1) (u + 1) (u' + 1)]
      | none =>
        cases hk : p.kw_only <;> cases ho : p.is_optional <;>
          by_cases hi : i < args.length <;>
          simp [bindLoop, h, hk, ho, hi, ih os (i + 1) u u']

/-- The loop never reports `TooManyArguments`: that error comes only from
the arity pre-check of lines 48-57. -/
lemma bindLoop_fst_not_tooMany {V : Type} (args : List V)
    (kwargs : Option (List (String × V))) :
    ∀ (ps : List ParamDescription) (os : List (Option V)) (i u : Nat)
      (f : Option String) (m g : Nat),
      (bindLoop args kwargs ps os i u).1 ≠ some (.tooManyArgs f m g) := by
  intro ps
  induction ps with
  | nil => intro os i u f m g; simp [bindLoop]
  | cons p ps ih =>
    intro os i u f m g
    cases os with
    | nil => simp [bindLoop]
    | cons o os =>
      cases h : dictGet kwargs p.name with
      | some kwarg =>
        by_cases hi : i < args.length <;> simp [bindLoop, h, hi, ih]
      | none =>
        cases hk : p.kw_only <;> cases ho : p.is_optional <;>
          by_cases hi : i < args.length <;> simp [bindLoop, h, hk, ho, hi, ih]

/-- The extraneous-keyword scan reports only `UnexpectedKeywordArgument`. -/
lemma keywordScan_shape {V : Type} (params : List ParamDescription) :
    ∀ (d : List (String × V)) (e : FnArgsError),
      keywordScan params d = some e → ∃ key, e = .invalidKeyword key := by
  intro d
  induction d with
  | nil => intro e he; simp [keywordScan] at he
  | cons kv rest ih =>
    intro e he
    by_cases hm : params.any fun p => p.name == kv.1
    · exact ih e (by simpa [keywordScan, hm] using he)
    · refine ⟨kv.1, ?_⟩
      simp [keywordScan, hm] at he
      exact he.symm

/-- If one loop step raises no error, the reported error equals the error of
the remaining loop, started at the next index. -/
lemma bindLoop_fst_cons {V : Type} (args : List V)
    (kwargs : Option (List (String × V))) (p : ParamDescription)
    (ps : List ParamDescription) (o : Option V) (os : List (Option V))
    (i u : Nat) (h : stepNoError args kwargs p i = true) :
    (bindLoop args kwargs (p :: ps) (o :: os) i u).1 =
    (bindLoop args kwargs ps os (i + 1) u).1 := by
  cases hg : dictGet kwargs p.name with
  | some kwarg =>
    have hi : ¬ i < args.length := by simpa [stepNoError, hg] using h
    simp only [bindLoop, hg, if_neg hi]
    exact bindLoop_fst_used args kwargs ps os (i + 1) (u + 1) u
  | none =>
    cases hk : p.kw_only with
    | true =>
      have ho : p.is_optional = true := by simpa [stepNoError, hg, hk] using h
      simp [bindLoop, hg, hk, ho]
    | false =>
      by_cases hi : i < args.length
      · simp [bindLoop, hg, hk, hi]
      · have ho : p.is_optional = true := by
          simpa [stepNoError, hg, hk, hi] using h
        simp [bindLoop, hg, hk, hi, ho]

/-- If the first `k` parameters raise no error, the error of the loop equals the
error of the loop restarted at index `k`. -/
lemma bindLoop_fst_drop {V : Type} (args : List V)
    (kwargs : Option (List (String × V))) :
    ∀ (k : Nat) (ps : List ParamDescription) (os : List (Option V))
      (i u : Nat), k ≤ ps.length → k ≤ os.length →
      (∀ j, j < k → ∀ (hjp : j < ps.length),
        stepNoError args kwargs (ps.get ⟨j, hjp⟩) (i + j) = true) →
      (bindLoop args kwargs ps os i u).1 =
      (bindLoop args kwargs (ps.drop k) (os.drop k) (i + k) u).1 := by
  intro k
  induction k with
  | zero => intro ps os i u _ _ _; simp
  | succ k ih =>
    intro ps os i u hps hos hstep
    cases ps with
    | nil => simp at hps
    | cons p ps =>
      cases os with
      | nil => simp at hos
      | cons o os =>
        have h0 : stepNoError args kwargs p i = true := by
          simpa using hstep 0 (Nat.succ_pos k) (by simp)
        rw [bindLoop_fst_cons args kwargs p ps o os i u h0]
        have := ih ps os (i + 1) u (Nat.le_of_succ_le_succ hps)
          (Nat.le_of_succ_le_succ hos)
          (fun j hj hjp => by
            have := hstep (j + 1) (Nat.succ_lt_succ hj) (Nat.succ_lt_succ hjp)
            simpa [Nat.add_assoc, Nat.add_comm 1 j] using this)
        simpa [List.drop, Nat.add_assoc, Nat.add_comm 1 k] using this

/-- C1 (amended): a parameter supplied both positionally and by keyword
fails with `DuplicateBinding` naming it and its 1-based position, regardless
of the state of every *later* parameter — provided the arity pre-check does
not fire and every *earlier* parameter binds without error. -/
theorem duplicate_binding_first_error {V : Type} (fname : Option String)
    (params : List ParamDescription) (args : List V)
    (kwargs : Option (List (String × V))) (accept_args accept_kwargs : Bool)
    (output : List (Option V)) (k : Nat) (v : V)
    (hk : k < params.length) (hko : k < output.length)
    (hpos : k < args.length)
    (hkw : dictGet kwargs (params.get ⟨k, hk⟩).name = some v)
    (hprev : ∀ j, j < k → ∀ (hjp : j < params.length),
      stepNoError args kwargs (params.get ⟨j, hjp⟩) j = true)
    (hpre : accept_args = true ∨ accept_kwargs = true ∨
      args.length + dictLen kwargs ≤ params.length) :
    (parse_fn_args fname params args kwargs accept_args accept_kwargs
        output).1 =
      .err (.duplicateArg (params.get ⟨k, hk⟩).name (k + 1)) := by
  have hc : ¬ ((!accept_args && !accept_kwargs) = true ∧
      params.length < args.length + dictLen kwargs) := by
    rcases hpre with h | h | h
    · simp [h]
    · simp [h]
    · intro hcon; exact absurd hcon.2 (by omega)
  have hl : (bindLoop args kwargs params output 0 0).1 =
      some (.duplicateArg (params.get ⟨k, hk⟩).name (k + 1)) := by
    rw [bindLoop_fst_drop args kwargs k params output 0 0 (le_of_lt hk)
      (le_of_lt hko) (fun j hj hjp => by simpa using hprev j hj hjp)]
    rw [← List.get_cons_drop params ⟨k, hk⟩,
      ← List.get_cons_drop output ⟨k, hko⟩]
    simp only [bindLoop, hkw]
    rw [if_pos (show 0 + k < args.length by simpa using hpos)]
    simp
  simp only [parse_fn_args]
  rw [if_neg hc, hl]

/-- Witness for `duplicate_binding_first_error`: parameter "b" at index 1 is
supplied positionally and by keyword and every earlier parameter binds. -/
theorem duplicate_binding_first_error_witness :
    (parse_fn_args none [⟨"a", true, false⟩, ⟨"b", false, false⟩]
        ([1, 2] : List Nat) (some [("b", 9)]) true false [none, none]).1 =
      .err (.duplicateArg "b" 2) :=
  duplicate_binding_first_error none
    [⟨"a", true, false⟩, ⟨"b", false, false⟩] [1, 2] (some [("b", 9)])
    true false [none, none] 1 9 (by decide) (by decide) (by decide)
    (by decide)
    (fun j hj hjp => by
      cases j with
      | zero =>
        exact (by decide : stepNoError ([1, 2] : List Nat) (some [("b", 9)])
          (⟨"a", true, false⟩ : ParamDescription) 0 = true)
      | succ n => exact absurd hj (by omega))
    (Or.inl rfl)

/-- C5 (amended): a required keyword-only parameter with no matching keyword
fails with `MissingKeywordOnlyArgument` naming it — whether or not a
positional value exists at its index, and regardless of every *later*
parameter — provided the arity pre-check does not fire and every *earlier*
parameter binds without error. -/
theorem missing_kwonly_first_error {V : Type} (fname : Option String)
    (params : List ParamDescription) (args : List V)
    (kwargs : Option (List (String × V))) (accept_args accept_kwargs : Bool)
    (output : List (Option V)) (k : Nat)
    (hk : k < params.length) (hko : k < output.length)
    (hkwonly : (params.get ⟨k, hk⟩).kw_only = true)
    (hreq : (params.get ⟨k, hk⟩).is_optional = false)
    (hnokw : dictGet kwargs (params.get ⟨k, hk⟩).name = none)
    (hprev : ∀ j, j < k → ∀ (hjp : j < params.length),
      stepNoError args kwargs (params.get ⟨j, hjp⟩) j = true)
    (hpre : accept_args = true ∨ accept_kwargs = true ∨
      args.length + dictLen kwargs ≤ params.length) :
    (parse_fn_args fname params args kwargs accept_args accept_kwargs
        output).1 =
      .err (.requiredKwOnly (params.get ⟨k, hk⟩).name) := by
  have hc : ¬ ((!accept_args && !accept_kwargs) = true ∧
      params.length < args.length + dictLen kwargs) := by
    rcases hpre with h | h | h
    · simp [h]
    · simp [h]
    · intro hcon; exact absurd hcon.2 (by omega)
  have hl : (bindLoop args kwargs params output 0 0).1 =
      some (.requiredKwOnly (params.get ⟨k, hk⟩).name) := by
    rw [bindLoop_fst_drop args kwargs k params output 0 0 (le_of_lt hk)
      (le_of_lt hko) (fun j hj hjp => by simpa using hprev j hj hjp)]
    rw [← List.get_cons_drop params ⟨k, hk⟩,
      ← List.get_cons_drop output ⟨k, hko⟩]
    simp only [bindLoop, hnokw, hkwonly, hreq]
    simp
  simp only [parse_fn_args]
  rw [if_neg hc, hl]

/-- Witness for `missing_kwonly_first_error`: parameter "b" at index 1 is
keyword-only and required, and two positional arguments cover its index. -/
theorem missing_kwonly_first_error_witness :
    (parse_fn_args none [⟨"a", true, false⟩, ⟨"b", false, true⟩]
        ([1, 2] : List Nat) none true false [none, none]).1 =
      .err (.requiredKwOnly "b") :=
  missing_kwonly_first_error none
    [⟨"a", true, false⟩, ⟨"b", false, true⟩] [1, 2] none
    true false [none, none] 1 (by decide) (by decide) (by decide)
    (by decide) (by decide)
    (fun j hj hjp => by
      cases j with
      | zero =>
        exact (by decide : stepNoError ([1, 2] : List Nat)
          (none : Option (List (String × Nat)))
          (⟨"a", true, false⟩ : ParamDescription) 0 = true)
      | succ n => exact absurd hj (by omega))
    (Or.inl rfl)

/-- C3: with both extras disallowed, binding fails with `TooManyArguments`
exactly when `nargs + nkeywords` exceeds the number of declared parameters,
the reported maximum is the parameter count, and when the total does not
exceed it, `TooManyArguments` is never reported. -/
theorem too_many_arguments_iff {V : Type} (fname : Option String)
    (params : List ParamDescription) (args : List V)
    (kwargs : Option (List (String × V))) (output : List (Option V)) :
    (params.length < args.length + dictLen kwargs →
      (parse_fn_args fname params args kwargs false false output).1 =
        .err (.tooManyArgs fname params.length
          (args.length + dictLen kwargs))) ∧
    (args.length + dictLen kwargs ≤ params.length →
      ∀ (f : Option String) (m g : Nat),
        (parse_fn_args fname params args kwargs false false output).1 ≠
          .err (.tooManyArgs f m g)) := by
  constructor
  · intro h
    simp only [parse_fn_args]
    rw [if_pos ⟨rfl, h⟩]
  · intro h f m g
    simp only [parse_fn_args]
    rw [if_neg (by intro hcon; exact absurd hcon.2 (by omega))]
    cases hl : (bindLoop args kwargs params output 0 0).1 with
    | some e =>
      simp only [hl]
      intro hcon
      have : e = .tooManyArgs f m g := by
        simpa using hcon
      exact bindLoop_fst_not_tooMany args kwargs params output 0 0 f m g
        (this ▸ hl)
    | none =>
      simp only [hl]
      by_cases hg : (!false) = true ∧
          (bindLoop args kwargs params output 0 0).2.2 ≠ dictLen kwargs
      · rw [if_pos hg]
        cases kwargs with
        | none => simp
        | some d =>
          cases hs : keywordScan params d with
          | some e =>
            simp only [hs]
            intro hcon
            rcases keywordScan_shape params d e hs with ⟨key, hkey⟩
            simp [hkey] at hcon
          | none => simp [hs]
      · rw [if_neg hg]
        simp

/-- Witness for `too_many_arguments_iff`: one call that overflows the arity
and reports max-arity 1, and one that does not overflow and reports no
`TooManyArguments`. -/
theorem too_many_arguments_iff_witness :
    (parse_fn_args none [⟨"a", false, false⟩] ([1, 2] : List Nat) none false
        false [none]).1 = .err (.tooManyArgs none 1 2) ∧
    (parse_fn_args none [⟨"a", false, false⟩] ([1] : List Nat) none false
        false [none]).1 ≠ .err (.tooManyArgs none 1 1) :=
  ⟨(too_many_arguments_iff none [⟨"a", false, false⟩] [1, 2] none [none]).1
      (by decide),
   (too_many_arguments_iff none [⟨"a", false, false⟩] [1] none [none]).2
      (by decide) none 1 1⟩

/-- C2 (amended): binding mutates the output array of the caller in place and an
error does not roll back earlier writes; what does hold is that the array
always keeps its length (slots are only overwritten, never added or
removed), and that the arity pre-check failure path leaves the array
exactly as it was. -/
theorem bind_output_effects {V : Type} (fname : Option String)
    (params : List ParamDescription) (args : List V)
    (kwargs : Option (List (String × V))) (accept_args accept_kwargs : Bool)
    (output : List (Option V)) :
    ((parse_fn_args fname params args kwargs accept_args accept_kwargs
        output).2).length = output.length ∧
    (params.length < args.length + dictLen kwargs →
      (parse_fn_args fname params args kwargs false false output).2 =
        output) := by
  constructor
  · simp only [parse_fn_args]
    by_cases hc : (!accept_args && !accept_kwargs) = true ∧
        params.length < args.length + dictLen kwargs
    · rw [if_pos hc]
    · rw [if_neg hc]
      cases hl : (bindLoop args kwargs params output 0 0).1 with
      | some e => simp [hl, bindLoop_len]
      | none =>
        simp only [hl]
        by_cases hg : (!accept_kwargs) = true ∧
            (bindLoop args kwargs params output 0 0).2.2 ≠ dictLen kwargs
        · rw [if_pos hg]
          cases kwargs with
          | none => simp [bindLoop_len]
          | some d =>
            cases hs : keywordScan params d <;> simp [hs, bindLoop_len]
        · rw [if_neg hg]; simp [bindLoop_len]
  · intro h
    simp only [parse_fn_args]
    rw [if_pos ⟨rfl, h⟩]

/-- Witness for `bind_output_effects` at a concrete overflowing call. -/
theorem bind_output_effects_witness :
    ((parse_fn_args none [⟨"a", false, false⟩] ([1, 2] : List Nat) none false
        false [none]).2).length = 1 ∧
    (parse_fn_args none [⟨"a", false, false⟩] ([1, 2] : List Nat) none false
        false [none]).2 = [none] :=
  ⟨(bind_output_effects none [⟨"a", false, false⟩] [1, 2] none false false
      [none]).1,
   (bind_output_effects none [⟨"a", false, false⟩] [1, 2] none false false
      [none]).2 (by decide)⟩

/-!  ## Counting consumed keywords  -/

/-- Without a keyword dictionary the loop never increments
`used_keywords`. -/
lemma bindLoop_used_none {V : Type} (args : List V) :
    ∀ (ps : List ParamDescription) (os : List (Option V)) (i u : Nat),
      (bindLoop args (none : Option (List (String × V))) ps os i u).2.2 =
        u := by
  intro ps
  induction ps with
  | nil => intro os i u; simp [bindLoop]
  | cons p ps ih =>
    intro os i u
    cases os with
    | nil => simp [bindLoop]
    | cons o os =>
      have hg : dictGet (none : Option (List (String × V))) p.name = none :=
        rfl
      cases hk : p.kw_only <;> cases ho : p.is_optional <;>
        by_cases hi : i < args.length <;>
        simp [bindLoop, hg, hk, ho, hi, ih]

/-- The `used_keywords` counter grows by at most one per processed parameter whose name
the dictionary contains (the zip of lines 60 processes
`min ps.length os.length` parameters). -/
lemma bindLoop_used_le {V : Type} (args : List V)
    (kwargs : Option (List (String × V))) :
    ∀ (ps : List ParamDescription) (os : List (Option V)) (i u : Nat),
      (bindLoop args kwargs ps os i u).2.2 ≤
        u + (ps.take os.length).countP
          fun p => (dictGet kwargs p.name).isSome := by
  intro ps
  induction ps with
  | nil => intro os i u; simp [bindLoop]
  | cons p ps ih =>
    intro os i u
    cases os with
    | nil => simp [bindLoop]
    | cons o os =>
      cases hg : dictGet kwargs p.name with
      | some kwarg =>
        have hih := ih os (i + 1) (u + 1)
        by_cases hi : i < args.length <;>
          simp [bindLoop, hg, hi, List.countP_cons] <;> omega
      | none =>
        have hih := ih os (i + 1) u
        cases hk : p.kw_only <;> cases ho : p.is_optional <;>
          by_cases hi : i < args.length <;>
          simp [bindLoop, hg, hk, ho, hi, List.countP_cons] <;> omega

/-- A name the dictionary lookup finds occurs among the dictionary keys. -/
lemma dictGet_isSome_mem {V : Type} (d : List (String × V)) (x : String)
    (h : (dictGet (some d) x).isSome = true) : x ∈ d.map Prod.fst := by
  have h2 : (d.find? fun kv => kv.1 == x).isSome = true := by
    simpa [dictGet] using h
  rw [List.find?_isSome] at h2
  rcases h2 with ⟨kv, hmem, hpred⟩
  have : kv.1 = x := by simpa using hpred
  exact this ▸ List.mem_map_of_mem Prod.fst hmem

/-- With pairwise-distinct parameter names, at most `d.length` parameters
can have their name in the dictionary `d`. -/
lemma countP_matched_le {V : Type} (params : List ParamDescription)
    (d : List (String × V))
    (hnd : (params.map ParamDescription.name).Nodup) :
    params.countP (fun p => (dictGet (some d) p.name).isSome) ≤ d.length := by
  have hsub : ((params.filter fun p => (dictGet (some d) p.name).isSome).map
      ParamDescription.name) ⊆ d.map Prod.fst := by
    intro x hx
    rcases List.mem_map.1 hx with ⟨p, hp, rfl⟩
    exact dictGet_isSome_mem d p.name (by simpa using (List.mem_filter.1 hp).2)
  have hnod : ((params.filter fun p =>
      (dictGet (some d) p.name).isSome).map ParamDescription.name).Nodup :=
    hnd.sublist ((List.filter_sublist params).map ParamDescription.name)
  have hle := (hnod.subperm hsub).length_le
  simpa [List.countP_eq_length_filter] using hle

/-- With pairwise-distinct parameter names and a dictionary key matching no
parameter, strictly fewer than `d.length` parameters can have their name in
`d`. -/
lemma countP_matched_lt {V : Type} (params : List ParamDescription)
    (d : List (String × V)) (key : String)
    (hnd : (params.map ParamDescription.name).Nodup)
    (hkey : key ∈ d.map Prod.fst)
    (hunknown : ∀ p ∈ params, p.name ≠ key) :
    params.countP (fun p => (dictGet (some d) p.name).isSome) < d.length := by
  have hsub : ((params.filter fun p => (dictGet (some d) p.name).isSome).map
      ParamDescription.name) ⊆
      (d.map Prod.fst).filter fun s => !(s == key) := by
    intro x hx
    rcases List.mem_map.1 hx with ⟨p, hp, rfl⟩
    refine List.mem_filter.2 ⟨dictGet_isSome_mem d p.name
      (by simpa using (List.mem_filter.1 hp).2), ?_⟩
    simpa using hunknown p (List.mem_filter.1 hp).1
  have hnod : ((params.filter fun p =>
      (dictGet (some d) p.name).isSome).map ParamDescription.name).Nodup :=
    hnd.sublist ((List.filter_sublist params).map ParamDescription.name)
  have hle := (hnod.subperm hsub).length_le
  have hlt : ((d.map Prod.fst).filter fun s => !(s == key)).length <
      (d.map Prod.fst).length := by
    refine List.length_filter_lt_length_iff_exists.2 ⟨key, hkey, ?_⟩
    simp
  have hml : (d.map Prod.fst).length = d.length := List.length_map d Prod.fst
  have hcl : params.countP (fun p => (dictGet (some d) p.name).isSome) =
      ((params.filter fun p => (dictGet (some d) p.name).isSome).map
        ParamDescription.name).length := by
    simp [List.countP_eq_length_filter]
  omega

/-- C10 (amended): `used_keywords` stays at or below `nkeywords` whenever
parameter names are pairwise distinct (it can exceed `nkeywords` only when a
name repeats), it stays 0 when `kwargs` is absent, and consequently the
`kwargs.unwrap()` of line 99 never panics on any input. -/
theorem unwrap_safety {V : Type} :
    (∀ (args : List V) (kwargs : Option (List (String × V)))
        (params : List ParamDescription) (output : List (Option V)),
      (params.map ParamDescription.name).Nodup →
      (bindLoop args kwargs params output 0 0).2.2 ≤ dictLen kwargs) ∧
    (∀ (args : List V) (params : List ParamDescription)
        (output : List (Option V)),
      (bindLoop args (none : Option (List (String × V))) params output
        0 0).2.2 = 0) ∧
    (∀ (fname : Option String) (params : List ParamDescription)
        (args : List V) (kwargs : Option (List (String × V)))
        (accept_args accept_kwargs : Bool) (output : List (Option V))
        (msg : String),
      (parse_fn_args fname params args kwargs accept_args accept_kwargs
        output).1 ≠ .fatal msg) := by
  refine ⟨?_, ?_, ?_⟩
  · intro args kwargs params output hnd
    cases kwargs with
    | none => simp [bindLoop_used_none, dictLen]
    | some d =>
      have h1 := bindLoop_used_le args (some d) params output 0 0
      have h2 := countP_matched_le (params.take output.length) d
        (hnd.sublist ((List.take_sublist output.length params).map
          ParamDescription.name))
      simpa [dictLen] using h1.trans (by omega)
  · intro args params output
    exact bindLoop_used_none args params output 0 0
  · intro fname params args kwargs accept_args accept_kwargs output msg
    simp only [parse_fn_args]
    by_cases hc : (!accept_args && !accept_kwargs) = true ∧
        params.length < args.length + dictLen kwargs
    · rw [if_pos hc]; simp
    · rw [if_neg hc]
      cases hl : (bindLoop args kwargs params output 0 0).1 with
      | some e => simp [hl]
      | none =>
        simp only [hl]
        by_cases hg : (!accept_kwargs) = true ∧
            (bindLoop args kwargs params output 0 0).2.2 ≠ dictLen kwargs
        · rw [if_pos hg]
          cases hkw : kwargs with
          | none =>
            exact absurd (by
              simpa [hkw, dictLen] using
                bindLoop_used_none args params output 0 0) (hkw ▸ hg).2
          | some d =>
            cases hs : keywordScan params d <;> simp [hs]
        · rw [if_neg hg]; simp

/-- Witness for `unwrap_safety` at concrete inputs. -/
theorem unwrap_safety_witness :
    (bindLoop ([] : List Nat) (some [("a", 5)]) [⟨"a", false, false⟩] [none]
      0 0).2.2 ≤ dictLen (some [("a", (5 : Nat))]) ∧
    (bindLoop ([] : List Nat) (none : Option (List (String × Nat)))
      [⟨"a", false, false⟩] [none] 0 0).2.2 = 0 ∧
    (parse_fn_args none [⟨"a", false, false⟩] ([] : List Nat) none false
      false [none]).1 ≠ .fatal "called Option.unwrap on a None value" :=
  ⟨(unwrap_safety (V := Nat)).1 [] (some [("a", 5)]) [⟨"a", false, false⟩]
      [none] (by decide),
   (unwrap_safety (V := Nat)).2.1 [] [⟨"a", false, false⟩] [none],
   (unwrap_safety (V := Nat)).2.2 none [⟨"a", false, false⟩] [] none false
      false [none] "called Option.unwrap on a None value"⟩

/-!  ## The extraneous-keyword claim  -/

/-- Dictionary lookup steps over one entry. -/
lemma dictGet_cons {V : Type} (kv : String × V) (rest : List (String × V))
    (x : String) :
    dictGet (some (kv :: rest)) x =
      if kv.1 == x then some kv.2 else dictGet (some rest) x := by
  by_cases h : (kv.1 == x) = true
  · simp [dictGet, List.find?_cons_of_pos, h]
  · simp [dictGet, List.find?_cons_of_neg, h]

/-- Removing an unrelated key from the dictionary does not change any other
lookup. -/
lemma dictGet_dictRemove {V : Type} (d : List (String × V)) (key x : String)
    (hx : x ≠ key) :
    dictGet (some (dictRemove d key)) x = dictGet (some d) x := by
  induction d with
  | nil => rfl
  | cons kv rest ih =>
    rw [dictGet_cons kv rest x]
    by_cases hk : (kv.1 == key) = true
    · have hk1 : kv.1 = key := by simpa using hk
      have hxf : ¬ ((kv.1 == x) = true) := by
        simp [hk1]
        exact fun hcon => hx hcon.symm
      rw [if_neg hxf]
      have hrm : dictRemove (kv :: rest) key = dictRemove rest key := by
        simp [dictRemove, List.filter_cons, hk]
      rw [hrm, ih]
    · have hrm : dictRemove (kv :: rest) key = kv :: dictRemove rest key := by
        simp [dictRemove, List.filter_cons, hk]
      rw [hrm, dictGet_cons]
      by_cases hxx : (kv.1 == x) = true
      · rw [if_pos hxx, if_pos hxx]
      · rw [if_neg hxx, if_neg hxx, ih]

/-- The loop consults a dictionary only through lookups of declared
parameter names. -/
lemma bindLoop_congr {V : Type} (args : List V)
    (k1 k2 : Option (List (String × V))) :
    ∀ (ps : List ParamDescription) (os : List (Option V)) (i u : Nat),
      (∀ p ∈ ps, dictGet k1 p.name = dictGet k2 p.name) →
      bindLoop args k1 ps os i u = bindLoop args k2 ps os i u := by
  intro ps
  induction ps with
  | nil => intro os i u _; simp [bindLoop]
  | cons p ps ih =>
    intro os i u h
    cases os with
    | nil => simp [bindLoop]
    | cons o os =>
      have hp : dictGet k1 p.name = dictGet k2 p.name :=
        h p (List.mem_cons_self p ps)
      have hrest : ∀ q ∈ ps, dictGet k1 q.name = dictGet k2 q.name :=
        fun q hq => h q (List.mem_cons_of_mem p hq)
      cases hg : dictGet k2 p.name with
      | some kwarg =>
        by_cases hi : i < args.length <;>
          simp [bindLoop, hp, hg, hi, ih os (i + 1) (u + 1) hrest]
      | none =>
        cases hk : p.kw_only <;> cases ho : p.is_optional <;>
          by_cases hi : i < args.length <;>
          simp [bindLoop, hp, hg, hk, ho, hi, ih os (i + 1) u hrest]

/-- When the only dictionary key not naming a parameter is `key`, the
extraneous-keyword scan reports exactly that key. -/
lemma keywordScan_finds_key {V : Type} (params : List ParamDescription) :
    ∀ (d : List (String × V)) (key : String),
      key ∈ d.map Prod.fst →
      (∀ p ∈ params, p.name ≠ key) →
      (∀ kv ∈ d, kv.1 = key ∨ ∃ p ∈ params, p.name = kv.1) →
      keywordScan params d = some (.invalidKeyword key) := by
  intro d
  induction d with
  | nil => intro key hk _ _; simp at hk
  | cons kv rest ih =>
    intro key hk hun hoth
    obtain ⟨k0, v0⟩ := kv
    rcases hoth (k0, v0) (List.mem_cons_self (k0, v0) rest) with hkv |
      ⟨p, hp, hpn⟩
    · have hk0 : k0 = key := hkv
      subst hk0
      have hany : (params.any fun q => q.name == k0) = false := by
        rw [List.any_eq_false]
        intro q hq
        simpa using hun q hq
      simp [keywordScan, hany]
    · have hany : (params.any fun q => q.name == k0) = true :=
        List.any_eq_true.2 ⟨p, hp, by simpa using hpn⟩
      have hne : k0 ≠ key := fun hcon => hun p hp (hpn.trans hcon)
      have hk2 : key ∈ rest.map Prod.fst := by
        simp only [List.map_cons, List.mem_cons] at hk
        rcases hk with hc | hc
        · exact absurd hc.symm hne
        · exact hc
      have hrest := ih key hk2 hun
        (fun kv2 h2 => hoth kv2 (List.mem_cons_of_mem (k0, v0) h2))
      simp [keywordScan, hany, hrest]

/-- C6: with the keyword dictionary containing exactly one entry whose key
`key` names no declared parameter, and the parameter loop succeeding: when
`accept_kwargs` is `false` the call fails with `UnexpectedKeywordArgument`
naming `key`; when `accept_kwargs` is `true` the same call succeeds and the
fixed-parameter output is the one obtained with `key` removed from the
dictionary, so `key` binds no slot. -/
theorem unexpected_keyword_behaviour {V : Type} (fname : Option String)
    (params : List ParamDescription) (args : List V)
    (d : List (String × V)) (accept_args : Bool) (output : List (Option V))
    (key : String) (v : V)
    (hmem : (key, v) ∈ d)
    (hunknown : ∀ p ∈ params, p.name ≠ key)
    (hothers : ∀ kv ∈ d, kv.1 = key ∨ ∃ p ∈ params, p.name = kv.1)
    (hnames : (params.map ParamDescription.name).Nodup)
    (hloop : (bindLoop args (some d) params output 0 0).1 = none)
    (hpre : accept_args = true ∨ args.length + d.length ≤ params.length) :
    (parse_fn_args fname params args (some d) accept_args false output).1 =
      .err (.invalidKeyword key) ∧
    parse_fn_args fname params args (some d) accept_args true output =
      (.ok, (bindLoop args (some (dictRemove d key)) params output
        0 0).2.1) := by
  have hkeymem : key ∈ d.map Prod.fst := List.mem_map_of_mem Prod.fst hmem
  have hused : (bindLoop args (some d) params output 0 0).2.2 < d.length := by
    have h1 := bindLoop_used_le args (some d) params output 0 0
    have h2 := countP_matched_lt (params.take output.length) d key
      (hnames.sublist ((List.take_sublist output.length params).map
        ParamDescription.name))
      hkeymem
      (fun p hp => hunknown p (List.mem_of_mem_take hp))
    omega
  constructor
  · have hc : ¬ ((!accept_args && !false) = true ∧
        params.length < args.length + dictLen (some d)) := by
      rcases hpre with h | h
      · simp [h]
      · intro hcon
        have h2 := hcon.2
        simp only [dictLen] at h2
        omega
    simp only [parse_fn_args]
    rw [if_neg hc]
    simp only [hloop]
    rw [if_pos ⟨rfl, by simp only [dictLen]; omega⟩]
    rw [keywordScan_finds_key params d key hkeymem hunknown hothers]
  · have hcongr := bindLoop_congr args (some (dictRemove d key)) (some d)
      params output 0 0
      (fun p hp => dictGet_dictRemove d key p.name (hunknown p hp))
    simp only [parse_fn_args]
    rw [if_neg (by simp)]
    simp only [hloop]
    rw [if_neg (by simp)]
    rw [hcongr]

/-- Witness for `unexpected_keyword_behaviour` at a concrete call with the
unknown key "z". -/
theorem unexpected_keyword_behaviour_witness :
    (parse_fn_args none [⟨"a", false, false⟩] ([] : List Nat)
        (some [("a", 1), ("z", 2)]) true false [none]).1 =
      .err (.invalidKeyword "z") ∧
    parse_fn_args none [⟨"a", false, false⟩] ([] : List Nat)
        (some [("a", 1), ("z", 2)]) true true [none] =
      (.ok, (bindLoop ([] : List Nat)
        (some (dictRemove [("a", 1), ("z", 2)] "z")) [⟨"a", false, false⟩]
        [none] 0 0).2.1) :=
  unexpected_keyword_behaviour none [⟨"a", false, false⟩] []
    [("a", 1), ("z", 2)] true [none] "z" 2 (by decide) (by decide)
    (by decide) (by decide) (by decide) (Or.inl rfl)
